import Mathlib

/-!
Shallow embedding of the hotel reservation system (`hotel_system.py`).

Records are modelled as structures whose fields hold JSON scalar values
(`Value`), the three collections live in a `SystemState`, and every public
operation of the `HotelSystem` class becomes a pure state-passing function.
The two operations that can hit a Python `TypeError` (comparing or adding a
number to a non-numeric `available_rooms`) return `Except String`.
-/

namespace HotelSpec

/-- A JSON scalar value stored in a record field (integer or string). -/
inductive Value where
  | intV (n : Int)
  | strV (s : String)
  deriving DecidableEq, Repr

/-- A hotel record: the dictionary built by `Hotel.__init__`, with keys
`hotel_id`, `name`, `location`, `total_rooms`, `available_rooms`. -/
structure Hotel where
  hotel_id : Value
  name : Value
  location : Value
  total_rooms : Value
  available_rooms : Value
  deriving DecidableEq, Repr

/-- `Hotel.__init__`: `available_rooms` starts equal to `total_rooms`. -/
def Hotel.init (hotel_id : Int) (name location : String) (total_rooms : Int) : Hotel :=
  { hotel_id := .intV hotel_id
    name := .strV name
    location := .strV location
    total_rooms := .intV total_rooms
    available_rooms := .intV total_rooms }

/-- A customer record built by `Customer.__init__`. -/
structure Customer where
  customer_id : Value
  name : Value
  email : Value
  phone : Value
  deriving DecidableEq, Repr

/-- `Customer.__init__`. -/
def Customer.init (customer_id : Int) (name email phone : String) : Customer :=
  { customer_id := .intV customer_id
    name := .strV name
    email := .strV email
    phone := .strV phone }

/-- A reservation record built by `Reservation.__init__`; `date` is the
stringified creation timestamp, passed in explicitly as the clock value. -/
structure Reservation where
  reservation_id : Value
  customer_id : Value
  hotel_id : Value
  date : Value
  deriving DecidableEq, Repr

/-- `Reservation.__init__`. -/
def Reservation.init (reservation_id customer_id hotel_id : Int) (now : String) :
    Reservation :=
  { reservation_id := .intV reservation_id
    customer_id := .intV customer_id
    hotel_id := .intV hotel_id
    date := .strV now }

/-- The persisted contents of the three collections (`hotels.json`,
`customers.json`, `reservations.json`). -/
structure SystemState where
  hotels : List Hotel
  customers : List Customer
  reservations : List Reservation
  deriving DecidableEq, Repr

/-- The state before any file has been written. -/
def emptyState : SystemState := ⟨[], [], []⟩

/-- The backing file of one collection, as `load_data` can find it. -/
inductive FileState (α : Type) where
  | absent
  | unreadable
  | corrupt
  | stored (data : List α)

/-- `load_data`: returns `[]` when the file is missing (`os.path.exists`
fails), raises `OSError` (unreadable), or holds invalid JSON
(`json.JSONDecodeError`); otherwise the parsed list. -/
def load_data {α : Type} : FileState α → List α
  | .absent => []
  | .unreadable => []
  | .corrupt => []
  | .stored data => data

/-- `save_data`: rewrites the whole file with the given records. -/
def save_data {α : Type} (data : List α) : FileState α := .stored data

/-- A backing-storage fault: the file is absent, unreadable or corrupt. -/
def FileState.isFault {α : Type} : FileState α → Prop
  | .stored _ => False
  | _ => True

/-- The state a `HotelSystem` call observes after loading all three files. -/
def loadState (fh : FileState Hotel) (fc : FileState Customer)
    (fr : FileState Reservation) : SystemState :=
  ⟨load_data fh, load_data fc, load_data fr⟩

/-- `HotelSystem.create_hotel`. -/
def create_hotel (s : SystemState) (hotel_id : Int) (name location : String)
    (total_rooms : Int) : Bool × SystemState :=
  if ∃ h ∈ s.hotels, h.hotel_id = Value.intV hotel_id then
    (false, s)
  else
    (true, { s with hotels := s.hotels ++ [Hotel.init hotel_id name location total_rooms] })

/-- `HotelSystem.delete_hotel`. -/
def delete_hotel (s : SystemState) (hotel_id : Int) : Bool × SystemState :=
  let new_hotels := s.hotels.filter (fun h => h.hotel_id ≠ Value.intV hotel_id)
  if new_hotels.length = s.hotels.length then
    (false, s)
  else
    (true, { s with hotels := new_hotels })

/-- `HotelSystem.display_hotels`. -/
def display_hotels (s : SystemState) : List Hotel := s.hotels

/-- `hotel[key] = value` guarded by `if key in hotel`: assign the named
field when the key is one of the record's keys, else leave the record as is. -/
def Hotel.setItem (h : Hotel) (kv : String × Value) : Hotel :=
  if kv.1 = "hotel_id" then { h with hotel_id := kv.2 }
  else if kv.1 = "name" then { h with name := kv.2 }
  else if kv.1 = "location" then { h with location := kv.2 }
  else if kv.1 = "total_rooms" then { h with total_rooms := kv.2 }
  else if kv.1 = "available_rooms" then { h with available_rooms := kv.2 }
  else h

/-- The inner loop of `modify_hotel`: find the first hotel with the given id,
apply all keyword updates to it, and return the updated list; `none` when no
hotel matches. -/
def modifyHotels (hotel_id : Int) (kvs : List (String × Value)) :
    List Hotel → Option (List Hotel)
  | [] => none
  | h :: rest =>
    if h.hotel_id = Value.intV hotel_id then
      some (kvs.foldl Hotel.setItem h :: rest)
    else
      (modifyHotels hotel_id kvs rest).map (h :: ·)

/-- `HotelSystem.modify_hotel`, with `**kwargs` as an ordered key/value list.
Note on the input space: in Python a keyword named `hotel_id` binds to the
declared positional parameter, so a call supplying it alongside the
positional id fails at the call site (`TypeError: multiple values for
argument`) and `kwargs` of an executable call never contains the key
`"hotel_id"`; the `kvs` argument here is wider, and statements about
executable calls carry the corresponding hypothesis on `kvs`. -/
def modify_hotel (s : SystemState) (hotel_id : Int) (kvs : List (String × Value)) :
    Bool × SystemState :=
  match modifyHotels hotel_id kvs s.hotels with
  | none => (false, s)
  | some hs => (true, { s with hotels := hs })

/-- `HotelSystem.create_customer`. -/
def create_customer (s : SystemState) (customer_id : Int) (name email phone : String) :
    Bool × SystemState :=
  if ∃ c ∈ s.customers, c.customer_id = Value.intV customer_id then
    (false, s)
  else
    (true, { s with customers := s.customers ++ [Customer.init customer_id name email phone] })

/-- `HotelSystem.delete_customer`. -/
def delete_customer (s : SystemState) (customer_id : Int) : Bool × SystemState :=
  let new_customers := s.customers.filter (fun c => c.customer_id ≠ Value.intV customer_id)
  if new_customers.length = s.customers.length then
    (false, s)
  else
    (true, { s with customers := new_customers })

/-- `HotelSystem.display_customers`. -/
def display_customers (s : SystemState) : List Customer := s.customers

/-- `customer[key] = value` guarded by `if key in customer`. -/
def Customer.setItem (c : Customer) (kv : String × Value) : Customer :=
  if kv.1 = "customer_id" then { c with customer_id := kv.2 }
  else if kv.1 = "name" then { c with name := kv.2 }
  else if kv.1 = "email" then { c with email := kv.2 }
  else if kv.1 = "phone" then { c with phone := kv.2 }
  else c

/-- The inner loop of `modify_customer`. -/
def modifyCustomers (customer_id : Int) (kvs : List (String × Value)) :
    List Customer → Option (List Customer)
  | [] => none
  | c :: rest =>
    if c.customer_id = Value.intV customer_id then
      some (kvs.foldl Customer.setItem c :: rest)
    else
      (modifyCustomers customer_id kvs rest).map (c :: ·)

/-- `HotelSystem.modify_customer`. As with `modify_hotel`, Python's keyword
binding keeps the key `"customer_id"` out of `kwargs` for every executable
call (it collides with the declared positional parameter); statements about
executable calls carry that hypothesis on `kvs`. -/
def modify_customer (s : SystemState) (customer_id : Int)
    (kvs : List (String × Value)) : Bool × SystemState :=
  match modifyCustomers customer_id kvs s.customers with
  | none => (false, s)
  | some cs => (true, { s with customers := cs })

/-- Outcome of the hotel scan inside `create_reservation`. -/
inductive RoomScan where
  | notFound
  | noRooms
  | reserved (hotels : List Hotel)
  deriving DecidableEq, Repr

/-- The hotel loop of `create_reservation`: at the first hotel with the given
id, fail when `available_rooms <= 0`, otherwise decrement it in place.
Comparing a non-integer `available_rooms` with `0` raises `TypeError`. -/
def scanHotels (hotel_id : Int) : List Hotel → Except String RoomScan
  | [] => .ok .notFound
  | h :: rest =>
    if h.hotel_id = Value.intV hotel_id then
      match h.available_rooms with
      | .intV n =>
        if n ≤ 0 then .ok .noRooms
        else .ok (.reserved ({ h with available_rooms := .intV (n - 1) } :: rest))
      | .strV _ => .error "TypeError: ordering str and int"
    else
      (scanHotels hotel_id rest).map fun r =>
        match r with
        | .reserved hs => .reserved (h :: hs)
        | other => other

/-- `HotelSystem.create_reservation`; `now` is the creation timestamp. -/
def create_reservation (s : SystemState) (reservation_id customer_id hotel_id : Int)
    (now : String) : Except String (Bool × SystemState) :=
  if ∃ r ∈ s.reservations, r.reservation_id = Value.intV reservation_id then
    .ok (false, s)
  else if ¬ ∃ c ∈ s.customers, c.customer_id = Value.intV customer_id then
    .ok (false, s)
  else
    match scanHotels hotel_id s.hotels with
    | .error e => .error e
    | .ok .notFound => .ok (false, s)
    | .ok .noRooms => .ok (false, s)
    | .ok (.reserved hs) =>
      .ok (true, { hotels := hs
                   customers := s.customers
                   reservations :=
                     s.reservations ++ [Reservation.init reservation_id customer_id hotel_id now] })

/-- The hotel loop of `cancel_reservation`: add one to `available_rooms` of
every hotel whose id matches; adding to a non-integer raises `TypeError`. -/
def incRooms (hid : Value) : List Hotel → Except String (List Hotel)
  | [] => .ok []
  | h :: rest =>
    if h.hotel_id = hid then
      match h.available_rooms with
      | .intV n => (incRooms hid rest).map ({ h with available_rooms := .intV (n + 1) } :: ·)
      | .strV _ => .error "TypeError: adding int to str"
    else
      (incRooms hid rest).map (h :: ·)

/-- `reservations.remove(reservation)` where `reservation` is the first
record with the given id: any full-record equal occurrence would share that
id, so the removed element is exactly the first record with the id. -/
def removeFirstReservation (rid : Int) : List Reservation → List Reservation
  | [] => []
  | r :: rest =>
    if r.reservation_id = Value.intV rid then rest
    else r :: removeFirstReservation rid rest

/-- `HotelSystem.cancel_reservation`. -/
def cancel_reservation (s : SystemState) (reservation_id : Int) :
    Except String (Bool × SystemState) :=
  match s.reservations.find? (fun r => r.reservation_id = Value.intV reservation_id) with
  | none => .ok (false, s)
  | some r =>
    match incRooms r.hotel_id s.hotels with
    | .error e => .error e
    | .ok hs =>
      .ok (true, { hotels := hs
                   customers := s.customers
                   reservations := removeFirstReservation reservation_id s.reservations })

/-- `HotelSystem.display_reservations`. -/
def display_reservations (s : SystemState) : List Reservation := s.reservations

/-- One invocation of a mutating public operation, with its arguments. -/
inductive Op where
  | createHotel (hotel_id : Int) (name location : String) (total_rooms : Int)
  | deleteHotel (hotel_id : Int)
  | modifyHotel (hotel_id : Int) (kvs : List (String × Value))
  | createCustomer (customer_id : Int) (name email phone : String)
  | deleteCustomer (customer_id : Int)
  | modifyCustomer (customer_id : Int) (kvs : List (String × Value))
  | createReservation (reservation_id customer_id hotel_id : Int) (now : String)
  | cancelReservation (reservation_id : Int)
  deriving DecidableEq, Repr

/-- Run one operation against the store; an uncaught `TypeError` aborts the
call before anything is saved, so the stored state is unchanged. -/
def runOp (s : SystemState) : Op → SystemState
  | .createHotel i n l t => (create_hotel s i n l t).2
  | .deleteHotel i => (delete_hotel s i).2
  | .modifyHotel i kvs => (modify_hotel s i kvs).2
  | .createCustomer i n e p => (create_customer s i n e p).2
  | .deleteCustomer i => (delete_customer s i).2
  | .modifyCustomer i kvs => (modify_customer s i kvs).2
  | .createReservation rid cid hid now =>
    match create_reservation s rid cid hid now with
    | .ok (_, s2) => s2
    | .error _ => s
  | .cancelReservation rid =>
    match cancel_reservation s rid with
    | .ok (_, s2) => s2
    | .error _ => s

/-- Run a sequence of public operations from a starting state. -/
def runOps (s : SystemState) (ops : List Op) : SystemState := ops.foldl runOp s

/-- Number of reservation records referencing the given hotel id. -/
def resCount (rs : List Reservation) (hid : Value) : Nat :=
  (rs.filter (fun r => r.hotel_id = hid)).length

/-- A hotel record is well accounted against the reservation list: integer
room counters with `available_rooms` nonnegative and
`available_rooms + (reservations against it) = total_rooms`. -/
def HotelOK (rs : List Reservation) (h : Hotel) : Prop :=
  ∃ a t : Int, h.available_rooms = Value.intV a ∧ h.total_rooms = Value.intV t ∧
    0 ≤ a ∧ a + (resCount rs h.hotel_id : Int) = t

/-- System invariant: room accounting per hotel, distinct hotel ids, and
every reservation referencing some stored hotel. -/
def SysInv (s : SystemState) : Prop :=
  (∀ h ∈ s.hotels, HotelOK s.reservations h) ∧
  (s.hotels.map Hotel.hotel_id).Pairwise (· ≠ ·) ∧
  (∀ r ∈ s.reservations, ∃ h ∈ s.hotels, h.hotel_id = r.hotel_id)

/-- Guard on an operation: hotels are created with a nonnegative room count,
hotel modifications stay away from the id and the two room counters, and
hotels are never deleted. -/
def GoodOp : Op → Prop
  | .createHotel _ _ _ t => 0 ≤ t
  | .deleteHotel _ => False
  | .modifyHotel _ kvs =>
    ∀ kv ∈ kvs, kv.1 ≠ "hotel_id" ∧ kv.1 ≠ "total_rooms" ∧ kv.1 ≠ "available_rooms"
  | _ => True

/-- The room-accounting fields of a hotel record. -/
def roomFields (h : Hotel) : Value × Value × Value :=
  (h.hotel_id, h.total_rooms, h.available_rooms)

/-- Spec-level picture of the in-memory increment `cancel_reservation`
performs on a matching hotel (total on `Value`; the operation itself faults
on the non-integer case, see `incRooms`). -/
def incVal : Value → Value
  | .intV n => .intV (n + 1)
  | v => v

/-- A shared concrete store holding one hotel, one customer, one reservation. -/
def dupState : SystemState :=
  ⟨[Hotel.init 1 "Grand" "NY" 3], [Customer.init 1 "John" "j@mail.com" "123"],
    [Reservation.init 1 1 1 "2026-10-12"]⟩

lemma load_data_of_isFault {α : Type} {f : FileState α} (hf : f.isFault) :
    load_data f = [] := by
  cases f with
  | stored d => exact absurd hf (by simp [FileState.isFault])
  | absent => rfl
  | unreadable => rfl
  | corrupt => rfl

lemma scanHotels_notFound {hid : Int} {l : List Hotel}
    (hno : ∀ h ∈ l, h.hotel_id ≠ Value.intV hid) :
    scanHotels hid l = .ok .notFound := by
  induction l with
  | nil => rfl
  | cons h rest ih =>
    have h1 : h.hotel_id ≠ Value.intV hid := hno h (by simp)
    have h2 : ∀ g ∈ rest, g.hotel_id ≠ Value.intV hid := fun g hg => hno g (by simp [hg])
    simp [scanHotels, if_neg h1, ih h2, Except.map]

/-- C5: creating a hotel, customer or reservation whose identity key is
already present in its collection returns `false` and leaves the whole
store exactly as it was. -/
theorem create_duplicate_rejected (s : SystemState) (i tot cid hid : Int)
    (nm loc em ph now : String) :
    ((∃ h ∈ s.hotels, h.hotel_id = Value.intV i) → create_hotel s i nm loc tot = (false, s)) ∧
    ((∃ c ∈ s.customers, c.customer_id = Value.intV i) →
      create_customer s i nm em ph = (false, s)) ∧
    ((∃ r ∈ s.reservations, r.reservation_id = Value.intV i) →
      create_reservation s i cid hid now = .ok (false, s)) := by
  refine ⟨fun hx => ?_, fun hx => ?_, fun hx => ?_⟩ <;>
    simp only [create_hotel, create_customer, create_reservation, if_pos hx]

/-- Witness for C5 at a concrete store with identity key 1 in each collection. -/
theorem create_duplicate_rejected_witness :
    create_hotel dupState 1 "X" "Y" 2 = (false, dupState) ∧
    create_customer dupState 1 "X" "Y" "Z" = (false, dupState) ∧
    create_reservation dupState 1 1 1 "T" = .ok (false, dupState) := by
  obtain ⟨h1, h2, h3⟩ := create_duplicate_rejected dupState 1 2 1 1 "X" "Y" "Y" "Z" "T"
  exact ⟨h1 (by decide), h2 (by decide), h3 (by decide)⟩

/-- C10: on a fresh hotel id, `create_hotel` succeeds and appends a record
whose `available_rooms` equals its `total_rooms`, for any integer
`total_rooms` — negative values included, no sign check is made. -/
theorem create_hotel_initial_rooms (s : SystemState) (i tot : Int) (nm loc : String)
    (hnew : ∀ h ∈ s.hotels, h.hotel_id ≠ Value.intV i) :
    create_hotel s i nm loc tot = (true,
      { s with hotels := s.hotels ++
          [{ hotel_id := Value.intV i
             name := Value.strV nm
             location := Value.strV loc
             total_rooms := Value.intV tot
             available_rooms := Value.intV tot }] }) := by
  have hx : ¬ ∃ h ∈ s.hotels, h.hotel_id = Value.intV i := by
    push_neg
    exact hnew
  simp only [create_hotel, if_neg hx, Hotel.init]

/-- Witness for C10 with a negative room count. -/
theorem create_hotel_initial_rooms_witness :
    create_hotel emptyState 1 "N" "L" (-3) = (true,
      { emptyState with hotels :=
          [{ hotel_id := Value.intV 1
             name := Value.strV "N"
             location := Value.strV "L"
             total_rooms := Value.intV (-3)
             available_rooms := Value.intV (-3) }] }) := by
  have h := create_hotel_initial_rooms emptyState 1 (-3) "N" "L" (by simp [emptyState])
  simpa [emptyState] using h

/-- C8: the hotel and customer deletions never touch the reservations
collection, and deleting an absent id leaves the whole store unchanged. -/
theorem delete_preserves_reservations (s : SystemState) (i : Int) :
    (delete_hotel s i).2.reservations = s.reservations ∧
    (delete_customer s i).2.reservations = s.reservations ∧
    ((∀ h ∈ s.hotels, h.hotel_id ≠ Value.intV i) → delete_hotel s i = (false, s)) ∧
    ((∀ c ∈ s.customers, c.customer_id ≠ Value.intV i) → delete_customer s i = (false, s)) := by
  refine ⟨?_, ?_, ?_, ?_⟩
  · unfold delete_hotel
    dsimp only
    split <;> rfl
  · unfold delete_customer
    dsimp only
    split <;> rfl
  · intro hno
    have hfil : s.hotels.filter (fun h => h.hotel_id ≠ Value.intV i) = s.hotels :=
      List.filter_eq_self.mpr (fun a ha => by simpa using hno a ha)
    simp [delete_hotel, hfil]
    exact hno
  · intro hno
    have hfil : s.customers.filter (fun c => c.customer_id ≠ Value.intV i) = s.customers :=
      List.filter_eq_self.mpr (fun a ha => by simpa using hno a ha)
    simp [delete_customer, hfil]
    exact hno

/-- Witness for C8 at a store whose single reservation references the
deleted hotel and customer, and at an absent id. -/
theorem delete_preserves_reservations_witness :
    (delete_hotel dupState 1).2.reservations = dupState.reservations ∧
    (delete_customer dupState 1).2.reservations = dupState.reservations ∧
    delete_hotel dupState 7 = (false, dupState) := by
  refine ⟨(delete_preserves_reservations dupState 1).1,
    (delete_preserves_reservations dupState 1).2.1,
    (delete_preserves_reservations dupState 7).2.2.1 ?_⟩
  decide

/-- C7: `load_data` yields the empty collection on every storage fault
(absent, unreadable or corrupt file), the stored contents otherwise, and a
public operation run over faulted storage returns an ordinary result
instead of propagating the fault. -/
theorem load_data_absorbs_faults :
    (∀ (α : Type), load_data (FileState.absent : FileState α) = [] ∧
      load_data (FileState.unreadable : FileState α) = [] ∧
      load_data (FileState.corrupt : FileState α) = []) ∧
    (∀ (α : Type) (d : List α), load_data (FileState.stored d) = d) ∧
    (∀ (fh : FileState Hotel) (fc : FileState Customer) (fr : FileState Reservation)
      (rid cid hid : Int) (now : String), fh.isFault → fc.isFault → fr.isFault →
      create_reservation (loadState fh fc fr) rid cid hid now =
        .ok (false, loadState fh fc fr)) := by
  refine ⟨fun α => ⟨rfl, rfl, rfl⟩, fun α d => rfl, ?_⟩
  intro fh fc fr rid cid hid now hfh hfc hfr
  have hc : load_data fc = [] := load_data_of_isFault hfc
  have hr : load_data fr = [] := load_data_of_isFault hfr
  simp [create_reservation, loadState, hc, hr]

/-- Witness for C7 on three concretely faulted files. -/
theorem load_data_absorbs_faults_witness :
    create_reservation (loadState FileState.corrupt FileState.absent FileState.unreadable)
      1 1 1 "T" = .ok (false, loadState FileState.corrupt FileState.absent
        FileState.unreadable) :=
  load_data_absorbs_faults.2.2 FileState.corrupt FileState.absent FileState.unreadable
    1 1 1 "T" trivial trivial trivial

/-- C4: `create_reservation` against a missing customer or a missing hotel
fails and leaves all three collections exactly as they were. -/
theorem create_reservation_missing_reference (s : SystemState) (rid cid hid : Int)
    (now : String)
    (hmiss : (∀ c ∈ s.customers, c.customer_id ≠ Value.intV cid) ∨
      (∀ h ∈ s.hotels, h.hotel_id ≠ Value.intV hid)) :
    create_reservation s rid cid hid now = .ok (false, s) := by
  unfold create_reservation
  split
  · rfl
  · split
    · rfl
    · rcases hmiss with hc | hh
      · rename_i hcust
        rw [not_not] at hcust
        obtain ⟨c, hcmem, hcid⟩ := hcust
        exact absurd hcid (hc c hcmem)
      · rw [scanHotels_notFound hh]

/-- Witness for C4: the spec scenario `create_reservation(1, 99, 99)` on
empty collections. -/
theorem create_reservation_missing_reference_witness :
    create_reservation emptyState 1 99 99 "T" = .ok (false, emptyState) :=
  create_reservation_missing_reference emptyState 1 99 99 "T" (Or.inl (by simp [emptyState]))

/-- The keys of a hotel record as stored by `Hotel.__init__`. -/
def hotelFieldNames : List String :=
  ["hotel_id", "name", "location", "total_rooms", "available_rooms"]

/-- The keys of a customer record as stored by `Customer.__init__`. -/
def customerFieldNames : List String := ["customer_id", "name", "email", "phone"]

/-- Dictionary lookup `hotel[key]` on a hotel record. -/
def Hotel.getField (h : Hotel) (k : String) : Option Value :=
  if k = "hotel_id" then some h.hotel_id
  else if k = "name" then some h.name
  else if k = "location" then some h.location
  else if k = "total_rooms" then some h.total_rooms
  else if k = "available_rooms" then some h.available_rooms
  else none

/-- Dictionary lookup `customer[key]` on a customer record. -/
def Customer.getField (c : Customer) (k : String) : Option Value :=
  if k = "customer_id" then some c.customer_id
  else if k = "name" then some c.name
  else if k = "email" then some c.email
  else if k = "phone" then some c.phone
  else none

lemma modifyHotels_none {i : Int} {kvs : List (String × Value)} {l : List Hotel}
    (hno : ∀ h ∈ l, h.hotel_id ≠ Value.intV i) :
    modifyHotels i kvs l = none := by
  induction l with
  | nil => rfl
  | cons g rest ih =>
    have h1 : g.hotel_id ≠ Value.intV i := hno g (by simp)
    simp [modifyHotels, if_neg h1, ih (fun x hx => hno x (by simp [hx]))]

lemma modifyHotels_found {i : Int} {kvs : List (String × Value)} {l : List Hotel}
    (hex : ∃ h ∈ l, h.hotel_id = Value.intV i) :
    ∃ pre h post, l = pre ++ h :: post ∧ (∀ p ∈ pre, p.hotel_id ≠ Value.intV i) ∧
      h.hotel_id = Value.intV i ∧
      modifyHotels i kvs l = some (pre ++ kvs.foldl Hotel.setItem h :: post) := by
  revert hex
  induction l with
  | nil => intro hex; simp at hex
  | cons g rest ih =>
    intro hex
    by_cases hg : g.hotel_id = Value.intV i
    · exact ⟨[], g, rest, rfl, by simp, hg, by simp [modifyHotels, if_pos hg]⟩
    · have hex2 : ∃ h ∈ rest, h.hotel_id = Value.intV i := by
        rcases hex with ⟨h, hmem, hid⟩
        rcases List.mem_cons.mp hmem with rfl | hmem2
        · exact absurd hid hg
        · exact ⟨h, hmem2, hid⟩
      obtain ⟨pre, h, post, hsplit, hpre, hid, heq⟩ := ih hex2
      refine ⟨g :: pre, h, post, by simp [hsplit], ?_, hid, ?_⟩
      · intro p hp
        rcases List.mem_cons.mp hp with rfl | hp2
        · exact hg
        · exact hpre p hp2
      · simp [modifyHotels, if_neg hg, heq]

lemma modifyCustomers_none {i : Int} {kvs : List (String × Value)} {l : List Customer}
    (hno : ∀ c ∈ l, c.customer_id ≠ Value.intV i) :
    modifyCustomers i kvs l = none := by
  induction l with
  | nil => rfl
  | cons g rest ih =>
    have h1 : g.customer_id ≠ Value.intV i := hno g (by simp)
    simp [modifyCustomers, if_neg h1, ih (fun x hx => hno x (by simp [hx]))]

lemma modifyCustomers_found {i : Int} {kvs : List (String × Value)} {l : List Customer}
    (hex : ∃ c ∈ l, c.customer_id = Value.intV i) :
    ∃ pre c post, l = pre ++ c :: post ∧ (∀ p ∈ pre, p.customer_id ≠ Value.intV i) ∧
      c.customer_id = Value.intV i ∧
      modifyCustomers i kvs l = some (pre ++ kvs.foldl Customer.setItem c :: post) := by
  revert hex
  induction l with
  | nil => intro hex; simp at hex
  | cons g rest ih =>
    intro hex
    by_cases hg : g.customer_id = Value.intV i
    · exact ⟨[], g, rest, rfl, by simp, hg, by simp [modifyCustomers, if_pos hg]⟩
    · have hex2 : ∃ c ∈ rest, c.customer_id = Value.intV i := by
        rcases hex with ⟨c, hmem, hid⟩
        rcases List.mem_cons.mp hmem with rfl | hmem2
        · exact absurd hid hg
        · exact ⟨c, hmem2, hid⟩
      obtain ⟨pre, c, post, hsplit, hpre, hid, heq⟩ := ih hex2
      refine ⟨g :: pre, c, post, by simp [hsplit], ?_, hid, ?_⟩
      · intro p hp
        rcases List.mem_cons.mp hp with rfl | hp2
        · exact hg
        · exact hpre p hp2
      · simp [modifyCustomers, if_neg hg, heq]

/-- C6: the modify operations fail without writing when the id is absent;
when it is present they succeed for any proposed updates, rewriting only the
first matching record by folding the per-key assignment, where a key not in
the record's key set leaves the record untouched and a key in it overwrites
that field with the proposed value. -/
theorem modify_whitelist_spec (s : SystemState) (i : Int) (kvs : List (String × Value)) :
    ((∀ h ∈ s.hotels, h.hotel_id ≠ Value.intV i) → modify_hotel s i kvs = (false, s)) ∧
    ((∃ h ∈ s.hotels, h.hotel_id = Value.intV i) →
      ∃ pre h post, s.hotels = pre ++ h :: post ∧ (∀ p ∈ pre, p.hotel_id ≠ Value.intV i) ∧
        h.hotel_id = Value.intV i ∧
        modify_hotel s i kvs =
          (true, { s with hotels := pre ++ kvs.foldl Hotel.setItem h :: post })) ∧
    (∀ (h : Hotel) (k : String) (v : Value), k ∉ hotelFieldNames →
      Hotel.setItem h (k, v) = h) ∧
    (∀ (h : Hotel) (k : String) (v : Value), k ∈ hotelFieldNames →
      (Hotel.setItem h (k, v)).getField k = some v) ∧
    ((∀ c ∈ s.customers, c.customer_id ≠ Value.intV i) → modify_customer s i kvs = (false, s)) ∧
    ((∃ c ∈ s.customers, c.customer_id = Value.intV i) →
      ∃ pre c post, s.customers = pre ++ c :: post ∧
        (∀ p ∈ pre, p.customer_id ≠ Value.intV i) ∧ c.customer_id = Value.intV i ∧
        modify_customer s i kvs =
          (true, { s with customers := pre ++ kvs.foldl Customer.setItem c :: post })) ∧
    (∀ (c : Customer) (k : String) (v : Value), k ∉ customerFieldNames →
      Customer.setItem c (k, v) = c) ∧
    (∀ (c : Customer) (k : String) (v : Value), k ∈ customerFieldNames →
      (Customer.setItem c (k, v)).getField k = some v) := by
  refine ⟨?_, ?_, ?_, ?_, ?_, ?_, ?_, ?_⟩
  · intro hno
    simp [modify_hotel, modifyHotels_none hno]
  · intro hex
    obtain ⟨pre, h, post, hsplit, hpre, hid, heq⟩ := @modifyHotels_found i kvs s.hotels hex
    exact ⟨pre, h, post, hsplit, hpre, hid, by simp [modify_hotel, heq]⟩
  · intro h k v hk
    simp only [hotelFieldNames, List.mem_cons, List.mem_singleton, not_or] at hk
    obtain ⟨h1, h2, h3, h4, h5⟩ := hk
    simp [Hotel.setItem, h1, h2, h3, h4, h5]
  · intro h k v hk
    simp only [hotelFieldNames, List.mem_cons, List.not_mem_nil, or_false] at hk
    rcases hk with rfl | rfl | rfl | rfl | rfl <;> rfl
  · intro hno
    simp [modify_customer, modifyCustomers_none hno]
  · intro hex
    obtain ⟨pre, c, post, hsplit, hpre, hid, heq⟩ :=
      @modifyCustomers_found i kvs s.customers hex
    exact ⟨pre, c, post, hsplit, hpre, hid, by simp [modify_customer, heq]⟩
  · intro c k v hk
    simp only [customerFieldNames, List.mem_cons, List.mem_singleton, not_or] at hk
    obtain ⟨h1, h2, h3, h4⟩ := hk
    simp [Customer.setItem, h1, h2, h3, h4]
  · intro c k v hk
    simp only [customerFieldNames, List.mem_cons, List.not_mem_nil, or_false] at hk
    rcases hk with rfl | rfl | rfl | rfl <;> rfl

/-- Witness for C6: the spec scenario `modify_customer(1, name="Jane")` with
an unknown key alongside, plus the absent-id branch at id 9. -/
theorem modify_whitelist_spec_witness :
    modify_hotel dupState 9 [("name", Value.strV "Jane")] = (false, dupState) ∧
    (∃ pre h post, dupState.hotels = pre ++ h :: post ∧
      (∀ p ∈ pre, p.hotel_id ≠ Value.intV 1) ∧ h.hotel_id = Value.intV 1 ∧
      modify_hotel dupState 1 [("name", Value.strV "Jane")] =
        (true, { dupState with hotels :=
          pre ++ [("name", Value.strV "Jane")].foldl Hotel.setItem h :: post })) ∧
    Hotel.setItem (Hotel.init 1 "Grand" "NY" 3) ("zzz", Value.intV 9) =
      Hotel.init 1 "Grand" "NY" 3 ∧
    (Hotel.setItem (Hotel.init 1 "Grand" "NY" 3) ("name", Value.strV "Jane")).getField
      "name" = some (Value.strV "Jane") ∧
    modify_customer dupState 9 [("name", Value.strV "Jane")] = (false, dupState) ∧
    (∃ pre c post, dupState.customers = pre ++ c :: post ∧
      (∀ p ∈ pre, p.customer_id ≠ Value.intV 1) ∧ c.customer_id = Value.intV 1 ∧
      modify_customer dupState 1 [("name", Value.strV "Jane")] =
        (true, { dupState with customers :=
          pre ++ [("name", Value.strV "Jane")].foldl Customer.setItem c :: post })) ∧
    Customer.setItem (Customer.init 1 "John" "j@mail.com" "123") ("zzz", Value.intV 9) =
      Customer.init 1 "John" "j@mail.com" "123" ∧
    (Customer.setItem (Customer.init 1 "John" "j@mail.com" "123")
      ("name", Value.strV "Jane")).getField "name" = some (Value.strV "Jane") := by
  obtain ⟨a1, -, a3, a4, a5, -, a7, a8⟩ :=
    modify_whitelist_spec dupState 9 [("name", Value.strV "Jane")]
  obtain ⟨-, b2, -, -, -, b6, -, -⟩ :=
    modify_whitelist_spec dupState 1 [("name", Value.strV "Jane")]
  exact ⟨a1 (by decide), b2 (by decide), a3 _ _ _ (by decide), a4 _ _ _ (by decide),
    a5 (by decide), b6 (by decide), a7 _ _ _ (by decide), a8 _ _ _ (by decide)⟩

lemma scanHotels_unique {hid : Int} {l : List Hotel}
    (huniq : (l.map Hotel.hotel_id).Pairwise (· ≠ ·))
    {h : Hotel} (hmem : h ∈ l) (hhid : h.hotel_id = Value.intV hid)
    {n : Int} (hav : h.available_rooms = Value.intV n) (hn : 0 < n) :
    scanHotels hid l = .ok (.reserved (l.map fun g =>
      if g.hotel_id = Value.intV hid then { g with available_rooms := Value.intV (n - 1) }
      else g)) := by
  revert huniq hmem
  induction l with
  | nil =>
    intro _ hmem
    simp at hmem
  | cons g rest ih =>
    intro huniq hmem
    rw [List.map_cons, List.pairwise_cons] at huniq
    obtain ⟨hg, huniq2⟩ := huniq
    by_cases hcase : g.hotel_id = Value.intV hid
    · have hgh : h = g := by
        rcases List.mem_cons.mp hmem with rfl | hmem2
        · rfl
        · exact absurd (hcase.trans hhid.symm)
            (hg h.hotel_id (List.mem_map_of_mem _ hmem2))
      subst hgh
      have hrest : (rest.map fun g2 => if g2.hotel_id = Value.intV hid
          then { g2 with available_rooms := Value.intV (n - 1) } else g2) = rest := by
        have hpt : ∀ a ∈ rest, (if a.hotel_id = Value.intV hid
            then { a with available_rooms := Value.intV (n - 1) } else a) = a := by
          intro a ha
          rw [if_neg]
          intro hEq
          exact hg a.hotel_id (List.mem_map_of_mem _ ha) (hcase.trans hEq.symm)
        calc (rest.map fun g2 => if g2.hotel_id = Value.intV hid
              then { g2 with available_rooms := Value.intV (n - 1) } else g2)
            = rest.map id := List.map_congr_left hpt
          _ = rest := List.map_id rest
      rw [List.map_cons, if_pos hcase, hrest]
      simp [scanHotels, if_pos hcase, hav, if_neg (not_le.mpr hn)]
    · have hmem2 : h ∈ rest := by
        rcases List.mem_cons.mp hmem with rfl | hm
        · exact absurd hhid hcase
        · exact hm
      simp [scanHotels, if_neg hcase, ih huniq2 hmem2, Except.map]

/-- C2: on a fresh reservation id, an existing customer and an existing
hotel with a room available (hotel ids being unique keys), the reservation
is created: it returns `true`, rewrites the hotels collection with exactly
that hotel's `available_rooms` decremented by one, and rewrites the
reservations collection with exactly one appended record carrying the three
ids. -/
theorem create_reservation_success (s : SystemState) (rid cid hid : Int) (now : String)
    (huniq : (s.hotels.map Hotel.hotel_id).Pairwise (· ≠ ·))
    (hnor : ∀ r ∈ s.reservations, r.reservation_id ≠ Value.intV rid)
    (hcust : ∃ c ∈ s.customers, c.customer_id = Value.intV cid)
    (h : Hotel) (hmem : h ∈ s.hotels) (hhid : h.hotel_id = Value.intV hid)
    (n : Int) (hav : h.available_rooms = Value.intV n) (hn : 0 < n) :
    create_reservation s rid cid hid now = .ok (true,
      { hotels := s.hotels.map fun g => if g.hotel_id = Value.intV hid
          then { g with available_rooms := Value.intV (n - 1) } else g
        customers := s.customers
        reservations := s.reservations ++ [Reservation.init rid cid hid now] }) := by
  have hno : ¬ ∃ r ∈ s.reservations, r.reservation_id = Value.intV rid := by
    push_neg
    exact hnor
  unfold create_reservation
  rw [if_neg hno, if_neg (not_not_intro hcust), scanHotels_unique huniq hmem hhid hav hn]

/-- Witness for C2 on a one-hotel, one-customer store with two free rooms. -/
theorem create_reservation_success_witness :
    create_reservation ⟨[Hotel.init 1 "T" "NY" 2], [Customer.init 1 "A" "B" "C"], []⟩
      5 1 1 "now" = .ok (true,
      { hotels := [Hotel.init 1 "T" "NY" 2].map fun g => if g.hotel_id = Value.intV 1
          then { g with available_rooms := Value.intV (2 - 1) } else g
        customers := [Customer.init 1 "A" "B" "C"]
        reservations := [] ++ [Reservation.init 5 1 1 "now"] }) :=
  create_reservation_success ⟨[Hotel.init 1 "T" "NY" 2], [Customer.init 1 "A" "B" "C"], []⟩
    5 1 1 "now" (by simp) (by simp) (by exact ⟨Customer.init 1 "A" "B" "C", by simp, rfl⟩)
    (Hotel.init 1 "T" "NY" 2) (by simp) rfl 2 rfl (by norm_num)

lemma find?_of_unique {rid : Int} {rs : List Reservation}
    (huniq : (rs.map Reservation.reservation_id).Pairwise (· ≠ ·))
    {r : Reservation} (hmem : r ∈ rs) (hr : r.reservation_id = Value.intV rid) :
    rs.find? (fun x => x.reservation_id = Value.intV rid) = some r := by
  revert huniq hmem
  induction rs with
  | nil =>
    intro _ hmem
    simp at hmem
  | cons a rest ih =>
    intro huniq hmem
    rw [List.map_cons, List.pairwise_cons] at huniq
    obtain ⟨ha, huniq2⟩ := huniq
    by_cases hc : a.reservation_id = Value.intV rid
    · have hra : r = a := by
        rcases List.mem_cons.mp hmem with rfl | hmem2
        · rfl
        · exact absurd (hc.trans hr.symm)
            (ha r.reservation_id (List.mem_map_of_mem _ hmem2))
      subst hra
      simp [List.find?_cons, hc]
    · have hmem2 : r ∈ rest := by
        rcases List.mem_cons.mp hmem with rfl | hm
        · exact absurd hr hc
        · exact hm
      simp [List.find?_cons, hc, ih huniq2 hmem2]

lemma removeFirst_decomp {rid : Int} {rs : List Reservation} {r : Reservation}
    (hfind : rs.find? (fun x => x.reservation_id = Value.intV rid) = some r) :
    ∃ pre post, rs = pre ++ r :: post ∧ (∀ p ∈ pre, p.reservation_id ≠ Value.intV rid) ∧
      r.reservation_id = Value.intV rid ∧
      removeFirstReservation rid rs = pre ++ post := by
  induction rs generalizing r with
  | nil => simp at hfind
  | cons a rest ih =>
    by_cases hc : a.reservation_id = Value.intV rid
    · have hra : a = r := by
        simpa [List.find?_cons, hc] using hfind
      subst hra
      exact ⟨[], rest, rfl, by simp, hc, by simp [removeFirstReservation, if_pos hc]⟩
    · have hfind2 : rest.find? (fun x => x.reservation_id = Value.intV rid) = some r := by
        simpa [List.find?_cons, hc] using hfind
      obtain ⟨pre, post, hsplit, hpre, hrid, hrem⟩ := ih hfind2
      refine ⟨a :: pre, post, by simp [hsplit], ?_, hrid, ?_⟩
      · intro p hp
        rcases List.mem_cons.mp hp with rfl | hp2
        · exact hc
        · exact hpre p hp2
      · simp [removeFirstReservation, if_neg hc, hrem]

lemma incRooms_total {hid : Value} {l : List Hotel}
    (hint : ∀ h ∈ l, h.hotel_id = hid → ∃ n : Int, h.available_rooms = Value.intV n) :
    incRooms hid l = .ok (l.map fun h => if h.hotel_id = hid
      then { h with available_rooms := incVal h.available_rooms } else h) := by
  induction l with
  | nil => rfl
  | cons g rest ih =>
    have ih2 := ih (fun x hx hx2 => hint x (by simp [hx]) hx2)
    by_cases hg : g.hotel_id = hid
    · obtain ⟨n, hn⟩ := hint g (by simp) hg
      simp [incRooms, if_pos hg, hn, ih2, Except.map, incVal]
    · simp [incRooms, if_neg hg, ih2, Except.map]

/-- C3: cancelling an id absent from the reservations collection fails and
changes nothing; cancelling an existing reservation (reservation ids being
unique keys, room counters being integers) succeeds, removes exactly that
one record, and adds one to `available_rooms` of exactly the hotels whose
`hotel_id` matches the cancelled reservation's. -/
theorem cancel_reservation_spec (s : SystemState) (rid : Int) :
    ((∀ r ∈ s.reservations, r.reservation_id ≠ Value.intV rid) →
      cancel_reservation s rid = .ok (false, s)) ∧
    (∀ r ∈ s.reservations, r.reservation_id = Value.intV rid →
      (s.reservations.map Reservation.reservation_id).Pairwise (· ≠ ·) →
      (∀ h ∈ s.hotels, h.hotel_id = r.hotel_id →
        ∃ n : Int, h.available_rooms = Value.intV n) →
      ∃ pre post, s.reservations = pre ++ r :: post ∧
        (∀ p ∈ pre, p.reservation_id ≠ Value.intV rid) ∧
        cancel_reservation s rid = .ok (true,
          { hotels := s.hotels.map fun h => if h.hotel_id = r.hotel_id
              then { h with available_rooms := incVal h.available_rooms } else h
            customers := s.customers
            reservations := pre ++ post })) := by
  constructor
  · intro hno
    have hfind : s.reservations.find? (fun x => x.reservation_id = Value.intV rid) = none := by
      rw [List.find?_eq_none]
      intro x hx
      simpa using hno x hx
    simp [cancel_reservation, hfind]
  · intro r hmem hr huniq hint
    have hfind := find?_of_unique huniq hmem hr
    obtain ⟨pre, post, hsplit, hpre, _, hrem⟩ := removeFirst_decomp hfind
    exact ⟨pre, post, hsplit, hpre,
      by simp [cancel_reservation, hfind, incRooms_total hint, hrem]⟩

/-- Witness for C3: the absent id 9 and the present id 1 on the shared
concrete store. -/
theorem cancel_reservation_spec_witness :
    cancel_reservation dupState 9 = .ok (false, dupState) ∧
    (∃ pre post, dupState.reservations = pre ++ Reservation.init 1 1 1 "2026-10-12" :: post ∧
      (∀ p ∈ pre, p.reservation_id ≠ Value.intV 1) ∧
      cancel_reservation dupState 1 = .ok (true,
        { hotels := dupState.hotels.map fun h =>
            if h.hotel_id = (Reservation.init 1 1 1 "2026-10-12").hotel_id
            then { h with available_rooms := incVal h.available_rooms } else h
          customers := dupState.customers
          reservations := pre ++ post })) := by
  refine ⟨(cancel_reservation_spec dupState 9).1 (by decide),
    (cancel_reservation_spec dupState 1).2 (Reservation.init 1 1 1 "2026-10-12")
      (by simp [dupState]) rfl (by simp [dupState]) ?_⟩
  intro h hh hid2
  simp [dupState] at hh
  subst hh
  exact ⟨3, rfl⟩

lemma resCount_append (rs rs2 : List Reservation) (hid : Value) :
    resCount (rs ++ rs2) hid = resCount rs hid + resCount rs2 hid := by
  simp [resCount, List.filter_append]

lemma resCount_cons (r : Reservation) (rs : List Reservation) (hid : Value) :
    resCount (r :: rs) hid = (if r.hotel_id = hid then 1 else 0) + resCount rs hid := by
  by_cases h : r.hotel_id = hid <;> simp [resCount, List.filter_cons, h, Nat.add_comm]

lemma resCount_eq_zero {rs : List Reservation} {hid : Value}
    (hno : ∀ r ∈ rs, r.hotel_id ≠ hid) : resCount rs hid = 0 := by
  rw [resCount, List.length_eq_zero, List.filter_eq_nil_iff]
  intro r hr
  simpa using hno r hr

lemma HotelOK_of_roomFields {rs : List Reservation} {h h2 : Hotel}
    (hf : roomFields h2 = roomFields h) (hok : HotelOK rs h) : HotelOK rs h2 := by
  obtain ⟨a, t, ha, ht, h0, hsum⟩ := hok
  have e1 : h2.hotel_id = h.hotel_id := congrArg (fun p => p.1) hf
  have e2 : h2.total_rooms = h.total_rooms := congrArg (fun p => p.2.1) hf
  have e3 : h2.available_rooms = h.available_rooms := congrArg (fun p => p.2.2) hf
  exact ⟨a, t, e3.trans ha, e2.trans ht, h0, by rw [e1]; exact hsum⟩

lemma map_ids_of_map_roomFields {l l2 : List Hotel}
    (hmap : l2.map roomFields = l.map roomFields) :
    l2.map Hotel.hotel_id = l.map Hotel.hotel_id := by
  calc l2.map Hotel.hotel_id
      = l2.map ((fun p => p.1) ∘ roomFields) := List.map_congr_left (fun a _ => rfl)
    _ = (l2.map roomFields).map (fun p => p.1) := (List.map_map _ _ _).symm
    _ = (l.map roomFields).map (fun p => p.1) := by rw [hmap]
    _ = l.map ((fun p => p.1) ∘ roomFields) := List.map_map _ _ _
    _ = l.map Hotel.hotel_id := List.map_congr_left (fun a _ => rfl)

lemma exists_hotel_of_map_ids {l l2 : List Hotel}
    (hmapids : l2.map Hotel.hotel_id = l.map Hotel.hotel_id) {v : Value}
    (hex : ∃ h ∈ l, h.hotel_id = v) : ∃ h ∈ l2, h.hotel_id = v := by
  obtain ⟨h, hm, he⟩ := hex
  have hv : v ∈ l2.map Hotel.hotel_id := by
    rw [hmapids]
    exact he ▸ List.mem_map_of_mem _ hm
  obtain ⟨h2, hm2, he2⟩ := List.mem_map.mp hv
  exact ⟨h2, hm2, he2⟩

lemma sysInv_congr {s s2 : SystemState} (inv : SysInv s)
    (hres : s2.reservations = s.reservations)
    (hmap : s2.hotels.map roomFields = s.hotels.map roomFields) : SysInv s2 := by
  obtain ⟨hok, hpair, hcov⟩ := inv
  refine ⟨?_, ?_, ?_⟩
  · intro h2 hmem2
    have hmm : roomFields h2 ∈ s.hotels.map roomFields := by
      rw [← hmap]
      exact List.mem_map_of_mem _ hmem2
    obtain ⟨h, hmem, hf⟩ := List.mem_map.mp hmm
    rw [hres]
    exact HotelOK_of_roomFields hf.symm (hok h hmem)
  · rw [map_ids_of_map_roomFields hmap]
    exact hpair
  · intro r hmem
    rw [hres] at hmem
    exact exists_hotel_of_map_ids (map_ids_of_map_roomFields hmap) (hcov r hmem)

lemma setItem_roomFields {h : Hotel} {kv : String × Value}
    (h1 : kv.1 ≠ "hotel_id") (h2 : kv.1 ≠ "total_rooms") (h3 : kv.1 ≠ "available_rooms") :
    roomFields (Hotel.setItem h kv) = roomFields h := by
  unfold Hotel.setItem
  split_ifs <;> first | rfl | exact absurd (by assumption) h1

lemma foldl_setItem_roomFields {kvs : List (String × Value)} {h : Hotel}
    (hk : ∀ kv ∈ kvs, kv.1 ≠ "hotel_id" ∧ kv.1 ≠ "total_rooms" ∧ kv.1 ≠ "available_rooms") :
    roomFields (kvs.foldl Hotel.setItem h) = roomFields h := by
  induction kvs generalizing h with
  | nil => rfl
  | cons kv rest ih =>
    obtain ⟨h1, h2, h3⟩ := hk kv (by simp)
    rw [List.foldl_cons, ih (fun x hx => hk x (by simp [hx])), setItem_roomFields h1 h2 h3]

lemma modifyHotels_map_roomFields {i : Int} {kvs : List (String × Value)} {l hs : List Hotel}
    (hk : ∀ kv ∈ kvs, kv.1 ≠ "hotel_id" ∧ kv.1 ≠ "total_rooms" ∧ kv.1 ≠ "available_rooms")
    (heq : modifyHotels i kvs l = some hs) :
    hs.map roomFields = l.map roomFields := by
  induction l generalizing hs with
  | nil => simp [modifyHotels] at heq
  | cons g rest ih =>
    by_cases hg : g.hotel_id = Value.intV i
    · simp only [modifyHotels, if_pos hg, Option.some.injEq] at heq
      subst heq
      simp [foldl_setItem_roomFields hk]
    · simp only [modifyHotels, if_neg hg, Option.map_eq_some'] at heq
      obtain ⟨t, ht, rfl⟩ := heq
      simp [ih ht]

lemma create_customer_frame (s : SystemState) (i : Int) (nm em ph : String) :
    (create_customer s i nm em ph).2.hotels = s.hotels ∧
    (create_customer s i nm em ph).2.reservations = s.reservations := by
  unfold create_customer
  split <;> exact ⟨rfl, rfl⟩

lemma delete_customer_frame (s : SystemState) (i : Int) :
    (delete_customer s i).2.hotels = s.hotels ∧
    (delete_customer s i).2.reservations = s.reservations := by
  unfold delete_customer
  dsimp only
  split <;> exact ⟨rfl, rfl⟩

lemma modify_customer_frame (s : SystemState) (i : Int) (kvs : List (String × Value)) :
    (modify_customer s i kvs).2.hotels = s.hotels ∧
    (modify_customer s i kvs).2.reservations = s.reservations := by
  unfold modify_customer
  cases modifyCustomers i kvs s.customers <;> exact ⟨rfl, rfl⟩

lemma scanHotels_reserved {hid : Int} {l hs : List Hotel}
    (h : scanHotels hid l = .ok (.reserved hs)) :
    ∃ pre h0 post n, l = pre ++ h0 :: post ∧
      (∀ p ∈ pre, p.hotel_id ≠ Value.intV hid) ∧ h0.hotel_id = Value.intV hid ∧
      h0.available_rooms = Value.intV n ∧ 0 < n ∧
      hs = pre ++ { h0 with available_rooms := Value.intV (n - 1) } :: post := by
  induction l generalizing hs with
  | nil => simp [scanHotels] at h
  | cons g rest ih =>
    by_cases hg : g.hotel_id = Value.intV hid
    · simp only [scanHotels, if_pos hg] at h
      cases hav : g.available_rooms with
      | intV n =>
        rw [hav] at h
        by_cases hn : n ≤ 0
        · simp [if_pos hn] at h
        · simp only [if_neg hn, Except.ok.injEq, RoomScan.reserved.injEq] at h
          exact ⟨[], g, rest, n, rfl, by simp, hg, hav, lt_of_not_le hn, h.symm⟩
      | strV s2 =>
        rw [hav] at h
        simp at h
    · simp only [scanHotels, if_neg hg] at h
      cases hrec : scanHotels hid rest with
      | error e =>
        rw [hrec] at h
        simp [Except.map] at h
      | ok r2 =>
        rw [hrec] at h
        cases r2 with
        | notFound => simp [Except.map] at h
        | noRooms => simp [Except.map] at h
        | reserved hs2 =>
          simp only [Except.map, Except.ok.injEq, RoomScan.reserved.injEq] at h
          obtain ⟨pre, h0, post, n, hsplit, hpre, hid0, hav, hn, hhs⟩ := ih hrec
          refine ⟨g :: pre, h0, post, n, by simp [hsplit], ?_, hid0, hav, hn,
            by simp [← h, hhs]⟩
          intro p hp
          rcases List.mem_cons.mp hp with rfl | hp2
          · exact hg
          · exact hpre p hp2

lemma incRooms_ok {hid : Value} {l hs : List Hotel} (h : incRooms hid l = .ok hs) :
    hs = l.map fun g => if g.hotel_id = hid
      then { g with available_rooms := incVal g.available_rooms } else g := by
  induction l generalizing hs with
  | nil =>
    simp only [incRooms, Except.ok.injEq] at h
    simp [← h]
  | cons g rest ih =>
    by_cases hg : g.hotel_id = hid
    · simp only [incRooms, if_pos hg] at h
      cases hav : g.available_rooms with
      | intV n =>
        rw [hav] at h
        cases hrec : incRooms hid rest with
        | error e =>
          rw [hrec] at h
          simp [Except.map] at h
        | ok t2 =>
          rw [hrec] at h
          simp only [Except.map, Except.ok.injEq] at h
          rw [← h]
          simp [List.map_cons, if_pos hg, hav, incVal, ih hrec]
      | strV s2 =>
        rw [hav] at h
        simp at h
    · simp only [incRooms, if_neg hg] at h
      cases hrec : incRooms hid rest with
      | error e =>
        rw [hrec] at h
        simp [Except.map] at h
      | ok t2 =>
        rw [hrec] at h
        simp only [Except.map, Except.ok.injEq] at h
        rw [← h]
        simp [List.map_cons, if_neg hg, ih hrec]

lemma resCount_singleton (r : Reservation) (hid : Value) :
    resCount [r] hid = if r.hotel_id = hid then 1 else 0 := by
  by_cases h : r.hotel_id = hid <;> simp [resCount, h]

lemma runOp_preserves_inv {s : SystemState} {op : Op} (inv : SysInv s) (good : GoodOp op) :
    SysInv (runOp s op) := by
  obtain ⟨hok, hpair, hcov⟩ := inv
  cases op with
  | createHotel i nm loc t =>
    by_cases hdup : ∃ h ∈ s.hotels, h.hotel_id = Value.intV i
    · have hstep : runOp s (Op.createHotel i nm loc t) = s := by
        simp [runOp, create_hotel, hdup]
      rw [hstep]
      exact ⟨hok, hpair, hcov⟩
    · have hnodup : ∀ h ∈ s.hotels, h.hotel_id ≠ Value.intV i := by
        push_neg at hdup
        exact hdup
      have hres0 : resCount s.reservations (Value.intV i) = 0 := by
        apply resCount_eq_zero
        intro r hrmem hrhid
        obtain ⟨h, hh, hid2⟩ := hcov r hrmem
        exact hnodup h hh (hid2.trans hrhid)
      have hstep : runOp s (Op.createHotel i nm loc t) =
          { s with hotels := s.hotels ++ [Hotel.init i nm loc t] } := by
        simp [runOp, create_hotel, hdup]
      rw [hstep]
      refine ⟨?_, ?_, ?_⟩
      · intro h hmem
        rcases List.mem_append.mp hmem with hmem2 | hmem2
        · exact hok h hmem2
        · rw [List.mem_singleton] at hmem2
          subst hmem2
          refine ⟨t, t, rfl, rfl, good, ?_⟩
          show t + (resCount s.reservations (Value.intV i) : Int) = t
          rw [hres0]
          simp
      · rw [List.map_append, List.pairwise_append]
        refine ⟨hpair, by simp, ?_⟩
        intro x hx y hy
        obtain ⟨h0, h0mem, rfl⟩ := List.mem_map.mp hx
        simp only [List.map_cons, List.map_nil, List.mem_singleton] at hy
        subst hy
        exact fun hEq => hnodup h0 h0mem hEq
      · intro r hrmem
        obtain ⟨h, hh, hid2⟩ := hcov r hrmem
        exact ⟨h, List.mem_append_left _ hh, hid2⟩
  | deleteHotel i => exact good.elim
  | modifyHotel i kvs =>
    cases heq : modifyHotels i kvs s.hotels with
    | none =>
      have hstep : runOp s (Op.modifyHotel i kvs) = s := by
        simp [runOp, modify_hotel, heq]
      rw [hstep]
      exact ⟨hok, hpair, hcov⟩
    | some hs =>
      have hstep : runOp s (Op.modifyHotel i kvs) = { s with hotels := hs } := by
        simp [runOp, modify_hotel, heq]
      rw [hstep]
      exact sysInv_congr ⟨hok, hpair, hcov⟩ rfl (modifyHotels_map_roomFields good heq)
  | createCustomer i nm em ph =>
    obtain ⟨e1, e2⟩ := create_customer_frame s i nm em ph
    show SysInv (create_customer s i nm em ph).2
    exact sysInv_congr ⟨hok, hpair, hcov⟩ e2 (by rw [e1])
  | deleteCustomer i =>
    obtain ⟨e1, e2⟩ := delete_customer_frame s i
    show SysInv (delete_customer s i).2
    exact sysInv_congr ⟨hok, hpair, hcov⟩ e2 (by rw [e1])
  | modifyCustomer i kvs =>
    obtain ⟨e1, e2⟩ := modify_customer_frame s i kvs
    show SysInv (modify_customer s i kvs).2
    exact sysInv_congr ⟨hok, hpair, hcov⟩ e2 (by rw [e1])
  | createReservation rid cid hid now =>
    by_cases hdup : ∃ r ∈ s.reservations, r.reservation_id = Value.intV rid
    · have hstep : runOp s (Op.createReservation rid cid hid now) = s := by
        simp [runOp, create_reservation, hdup]
      rw [hstep]
      exact ⟨hok, hpair, hcov⟩
    · by_cases hcust : ∃ c ∈ s.customers, c.customer_id = Value.intV cid
      · cases hscan : scanHotels hid s.hotels with
        | error e =>
          have hstep : runOp s (Op.createReservation rid cid hid now) = s := by
            simp [runOp, create_reservation, hdup, hcust, hscan]
          rw [hstep]
          exact ⟨hok, hpair, hcov⟩
        | ok res =>
          cases res with
          | notFound =>
            have hstep : runOp s (Op.createReservation rid cid hid now) = s := by
              simp [runOp, create_reservation, hdup, hcust, hscan]
            rw [hstep]
            exact ⟨hok, hpair, hcov⟩
          | noRooms =>
            have hstep : runOp s (Op.createReservation rid cid hid now) = s := by
              simp [runOp, create_reservation, hdup, hcust, hscan]
            rw [hstep]
            exact ⟨hok, hpair, hcov⟩
          | reserved hs =>
            obtain ⟨pre, h0, post, n, hsplit, hpre, hid0, hav0, hn, hhs⟩ :=
              scanHotels_reserved hscan
            have hstep : runOp s (Op.createReservation rid cid hid now) =
                { hotels := hs
                  customers := s.customers
                  reservations := s.reservations ++ [Reservation.init rid cid hid now] } := by
              simp [runOp, create_reservation, hdup, hcust, hscan]
            rw [hstep]
            have hmapids : hs.map Hotel.hotel_id = s.hotels.map Hotel.hotel_id := by
              rw [hhs, hsplit]
              simp
            have hpost : ∀ p ∈ post, p.hotel_id ≠ Value.intV hid := by
              have hp := hpair
              rw [hsplit, List.map_append, List.pairwise_append, List.map_cons,
                List.pairwise_cons] at hp
              intro p hpmem hEq
              exact hp.2.1.1 p.hotel_id (List.mem_map_of_mem _ hpmem) (hid0.trans hEq.symm)
            refine ⟨?_, ?_, ?_⟩
            · intro h hmem
              rw [hhs] at hmem
              rcases List.mem_append.mp hmem with hmem2 | hmem2
              · have hne : h.hotel_id ≠ Value.intV hid := hpre h hmem2
                have hmemS : h ∈ s.hotels := by
                  rw [hsplit]
                  exact List.mem_append_left _ hmem2
                obtain ⟨a, t, ha, ht, h0a, hsum⟩ := hok h hmemS
                refine ⟨a, t, ha, ht, h0a, ?_⟩
                show a + (resCount (s.reservations ++ [Reservation.init rid cid hid now])
                  h.hotel_id : Int) = t
                rw [resCount_append, resCount_singleton]
                simp only [Reservation.init]
                rw [if_neg (fun hEq => hne hEq.symm), Nat.add_zero]
                exact hsum
              · rcases List.mem_cons.mp hmem2 with rfl | hmem3
                · have hmemS : h0 ∈ s.hotels := by
                    rw [hsplit]
                    exact List.mem_append_right _ (by simp)
                  obtain ⟨a, t, ha, ht, h0a, hsum⟩ := hok h0 hmemS
                  have han : a = n := Value.intV.inj (ha.symm.trans hav0)
                  subst han
                  refine ⟨a - 1, t, rfl, ht, by omega, ?_⟩
                  show (a - 1) + (resCount (s.reservations ++
                    [Reservation.init rid cid hid now]) h0.hotel_id : Int) = t
                  rw [resCount_append, resCount_singleton]
                  simp only [Reservation.init]
                  rw [if_pos hid0.symm]
                  push_cast
                  omega
                · have hne : h.hotel_id ≠ Value.intV hid := hpost h hmem3
                  have hmemS : h ∈ s.hotels := by
                    rw [hsplit]
                    exact List.mem_append_right _ (List.mem_cons_of_mem _ hmem3)
                  obtain ⟨a, t, ha, ht, h0a, hsum⟩ := hok h hmemS
                  refine ⟨a, t, ha, ht, h0a, ?_⟩
                  show a + (resCount (s.reservations ++ [Reservation.init rid cid hid now])
                    h.hotel_id : Int) = t
                  rw [resCount_append, resCount_singleton]
                  simp only [Reservation.init]
                  rw [if_neg (fun hEq => hne hEq.symm), Nat.add_zero]
                  exact hsum
            · rw [hmapids]
              exact hpair
            · intro r hrmem
              rcases List.mem_append.mp hrmem with hrm | hrm
              · exact exists_hotel_of_map_ids hmapids (hcov r hrm)
              · rw [List.mem_singleton] at hrm
                subst hrm
                refine ⟨{ h0 with available_rooms := Value.intV (n - 1) }, ?_, ?_⟩
                · rw [hhs]
                  exact List.mem_append_right _ (by simp)
                · show h0.hotel_id = Value.intV hid
                  exact hid0
      · have hstep : runOp s (Op.createReservation rid cid hid now) = s := by
          simp [runOp, create_reservation, hdup, hcust]
        rw [hstep]
        exact ⟨hok, hpair, hcov⟩
  | cancelReservation rid =>
    cases hfind : s.reservations.find? (fun x => x.reservation_id = Value.intV rid) with
    | none =>
      have hstep : runOp s (Op.cancelReservation rid) = s := by
        simp [runOp, cancel_reservation, hfind]
      rw [hstep]
      exact ⟨hok, hpair, hcov⟩
    | some r =>
      cases hinc : incRooms r.hotel_id s.hotels with
      | error e =>
        have hstep : runOp s (Op.cancelReservation rid) = s := by
          simp [runOp, cancel_reservation, hfind, hinc]
        rw [hstep]
        exact ⟨hok, hpair, hcov⟩
      | ok hs =>
        have hmap := incRooms_ok hinc
        obtain ⟨pre, post, hsplit, hpre, hrid, hrem⟩ := removeFirst_decomp hfind
        have hstep : runOp s (Op.cancelReservation rid) =
            { hotels := hs
              customers := s.customers
              reservations := pre ++ post } := by
          simp [runOp, cancel_reservation, hfind, hinc, hrem]
        rw [hstep]
        have hmapids : hs.map Hotel.hotel_id = s.hotels.map Hotel.hotel_id := by
          rw [hmap, List.map_map]
          refine List.map_congr_left ?_
          intro a _
          by_cases hg : a.hotel_id = r.hotel_id <;> simp [Function.comp, hg]
        refine ⟨?_, by rw [hmapids]; exact hpair, ?_⟩
        · intro h2 hmem2
          rw [hmap] at hmem2
          obtain ⟨h, hmemS, rfl⟩ := List.mem_map.mp hmem2
          dsimp only
          obtain ⟨a, t, ha, ht, h0a, hsum⟩ := hok h hmemS
          have hcntS : resCount s.reservations h.hotel_id
              = resCount pre h.hotel_id +
                ((if r.hotel_id = h.hotel_id then 1 else 0) + resCount post h.hotel_id) := by
            rw [hsplit, resCount_append, resCount_cons]
          by_cases hg : h.hotel_id = r.hotel_id
          · rw [if_pos hg]
            refine ⟨a + 1, t, ?_, ht, by omega, ?_⟩
            · show incVal h.available_rooms = Value.intV (a + 1)
              rw [ha]
              rfl
            · show (a + 1) + (resCount (pre ++ post) h.hotel_id : Int) = t
              rw [resCount_append]
              rw [hcntS, if_pos hg.symm] at hsum
              push_cast at hsum ⊢
              omega
          · rw [if_neg hg]
            refine ⟨a, t, ha, ht, h0a, ?_⟩
            show a + (resCount (pre ++ post) h.hotel_id : Int) = t
            rw [resCount_append]
            rw [hcntS, if_neg (fun hEq => hg hEq.symm)] at hsum
            push_cast at hsum ⊢
            omega
        · intro r2 hr2
          have hr2S : r2 ∈ s.reservations := by
            rw [hsplit]
            rcases List.mem_append.mp hr2 with hm | hm
            · exact List.mem_append_left _ hm
            · exact List.mem_append_right _ (List.mem_cons_of_mem _ hm)
          exact exists_hotel_of_map_ids hmapids (hcov r2 hr2S)

lemma sysInv_empty : SysInv emptyState :=
  ⟨by simp [emptyState], by simp [emptyState], by simp [emptyState]⟩

lemma runOps_preserves_inv {s : SystemState} {ops : List Op} (inv : SysInv s)
    (good : ∀ op ∈ ops, GoodOp op) : SysInv (runOps s ops) := by
  induction ops generalizing s with
  | nil => exact inv
  | cons op rest ih =>
    exact ih (runOp_preserves_inv inv (good op (by simp)))
      (fun x hx => good x (by simp [hx]))

/-- C1 as stated fails: a single public call on the empty store — creating
a hotel with negative `total_rooms`, which no check forbids — reaches a
state whose hotel has `available_rooms = -1 < 0`. -/
theorem available_rooms_bound_fails :
    (runOps emptyState [Op.createHotel 1 "N" "L" (-1)]).hotels.map
      Hotel.available_rooms = [Value.intV (-1)] ∧
    (runOps emptyState [Op.createHotel 1 "N" "L" (-1)]).hotels.map
      Hotel.total_rooms = [Value.intV (-1)] ∧
    ¬ (0 : Int) ≤ -1 :=
  ⟨rfl, rfl, by norm_num⟩

/-- C1 amended: in every state reachable from the empty store by public
operations in which each `create_hotel` is given a nonnegative
`total_rooms`, no `modify_hotel` proposes the keys `hotel_id`,
`total_rooms` or `available_rooms`, and no `delete_hotel` occurs, every
hotel record satisfies `0 ≤ available_rooms ≤ total_rooms`. -/
theorem available_rooms_bounded (ops : List Op) (hgood : ∀ op ∈ ops, GoodOp op)
    (h : Hotel) (hmem : h ∈ (runOps emptyState ops).hotels)
    (a t : Int) (hav : h.available_rooms = Value.intV a)
    (ht : h.total_rooms = Value.intV t) : 0 ≤ a ∧ a ≤ t := by
  obtain ⟨hok, -, -⟩ := runOps_preserves_inv sysInv_empty hgood
  obtain ⟨a2, t2, hav2, ht2, h0, hsum⟩ := hok h hmem
  obtain rfl : a = a2 := Value.intV.inj (hav.symm.trans hav2)
  obtain rfl : t = t2 := Value.intV.inj (ht.symm.trans ht2)
  have hc : (0 : Int) ≤ (resCount (runOps emptyState ops).reservations h.hotel_id : Int) :=
    Int.natCast_nonneg _
  omega

/-- Witness for the amended C1: a three-operation run that books the last
free room of a two-room hotel. -/
theorem available_rooms_bounded_witness : (0 : Int) ≤ 1 ∧ (1 : Int) ≤ 2 := by
  refine available_rooms_bounded
    [Op.createHotel 1 "N" "L" 2, Op.createCustomer 1 "A" "B" "C",
      Op.createReservation 1 1 1 "now"] ?_
    { hotel_id := Value.intV 1
      name := Value.strV "N"
      location := Value.strV "L"
      total_rooms := Value.intV 2
      available_rooms := Value.intV 1 } ?_ 1 2 rfl rfl
  · intro op hop
    rcases List.mem_cons.mp hop with rfl | hop2
    · show (0 : Int) ≤ 2
      norm_num
    · rcases List.mem_cons.mp hop2 with rfl | hop3
      · trivial
      · rw [List.mem_singleton] at hop3
        subst hop3
        trivial
  · exact List.mem_singleton.mpr rfl

end HotelSpec
